import Mathlib

/-!
Verification development for the Walmart seller connector
(source_walmart_seller/streams.py).

The definitions below are a shallow embedding of the code paths the claims
talk about: the on-request report polling loop (read_records), the CSV
repair and archive decoding (parse_response of the on-request stream and of
the reconciliation stream), the pagination token codec
(_params_from_next_page_token), the per-endpoint next_page_token readers,
and the reconciliation slice planner (stream_slices).
-/

namespace WalmartSeller

/-- Single quote character, written by code point to keep source text plain. -/
def squote : Char := Char.ofNat 39

/-- A parsed report row: column name paired with field text. -/
abbrev Row := List (List Char × List Char)

/-!
## Report Job Controller (WalmartOnRequestReportStream.read_records)

The polling loop of read_records, lines 305 to 329 of streams.py.  The
status returned by the poll with index i is statuses i.  Wall-clock time is
modelled as the claims direct: a poll is instantaneous and each sleep
advances the clock by sleep_for_seconds.  The loop variables map one to one
onto the Python locals: polls counts calls of _report_status, waited is
seconds_waited, clock is the elapsed wall-clock time, inProgress, isReady
and isError are the three flags, lastPayload is
report_status_payload.get of requestStatus (none for the initial empty
payload).
-/

structure PollState where
  polls : Nat
  waited : Nat
  clock : Nat
  inProgress : Bool
  isReady : Bool
  isError : Bool
  lastPayload : Option String
  deriving DecidableEq

/-- requestStatus values the loop treats as still in progress
(line 315 of streams.py). -/
def inProgressStatus (s : String) : Bool :=
  s == "RECEIVED" || s == "INPROGRESS"

/-- One iteration of the while body: poll, record elapsed time, recompute
the three flags, and sleep when still in progress. -/
def loopIter (statuses : Nat → String) (sleepFor : Nat) (st : PollState) : PollState :=
  let s := statuses st.polls
  { polls := st.polls + 1
    waited := st.clock
    clock := if inProgressStatus s then st.clock + sleepFor else st.clock
    inProgress := inProgressStatus s
    isReady := s == "READY"
    isError := s == "ERROR"
    lastPayload := some s }

/-- The while loop, with fuel making the recursion total.  The code itself
has no fuel; every theorem supplies enough fuel for the run it describes. -/
def pollLoop (statuses : Nat → String) (maxWait sleepFor : Nat) :
    Nat → PollState → Option PollState
  | 0, _ => none
  | fuel + 1, st =>
    if st.inProgress = true ∧ st.waited < maxWait then
      pollLoop statuses maxWait sleepFor fuel (loopIter statuses sleepFor st)
    else
      some st

/-- Loop entry state: in_progress = True, seconds_waited = 0, empty payload. -/
def initPollState : PollState :=
  { polls := 0, waited := 0, clock := 0, inProgress := true,
    isReady := false, isError := false, lastPayload := none }

/-- Terminal outcome of read_records.  success carries the rows produced by
parse_response on the downloaded report; the download endpoint is invoked
exactly in the is_ready branch. -/
inductive ReadOutcome where
  | noRequestId : ReadOutcome
  | success : List Row → ReadOutcome
  | generationFailed : ReadOutcome
  | unknownResponse : Option String → ReadOutcome
  deriving DecidableEq

/-- Number of calls of _report_download made on the way to an outcome: one
in the is_ready branch, zero everywhere else (lines 322 to 329). -/
def downloadCalls : ReadOutcome → Nat
  | .success _ => 1
  | _ => 0

/-- read_records, lines 291 to 329: create the report (requestId is the id
of the created job, empty string models a falsy id), run the polling loop,
then dispatch on the flags.  downloadedRows stands for the rows that
parse_response yields from the downloaded artifact. -/
def readRecords (requestId : String) (statuses : Nat → String)
    (maxWait sleepFor : Nat) (downloadedRows : List Row) (fuel : Nat) :
    Option ReadOutcome :=
  if requestId = "" then some .noRequestId
  else
    match pollLoop statuses maxWait sleepFor fuel initPollState with
    | none => none
    | some st =>
      if st.isReady then some (.success downloadedRows)
      else if st.isError then some .generationFailed
      else some (.unknownResponse st.lastPayload)

/-!
## Archive/Row Decoder (WalmartOnRequestReportStream.parse_response)

Lines 331 to 357 of streams.py.  The decoder receives the zipped single
inner entry; the decompression itself is IO, so the embedding starts from
the bytes of that inner entry, given as a list of characters.  The Python
code converts those bytes with str, producing the text b followed by a
quoted escape-encoded body; pyBytesRepr models that conversion for the
printable subset the claims use.
-/

/-- ASCII character class of the repair regex, [a-zA-Z0-9]. -/
def isAlnum (c : Char) : Bool := c.isAlpha || c.isDigit

/-- Does the 7 character repair pattern alnum quote quote comma quote quote
alnum match at the head of the list (regex on line 345)? -/
def matchesAt : List Char → Bool
  | c0 :: c1 :: c2 :: c3 :: c4 :: c5 :: c6 :: _ =>
    isAlnum c0 && c1 == '"' && c2 == '"' && c3 == ',' && c4 == '"' && c5 == '"' && isAlnum c6
  | _ => false

/-- re.findall of the repair pattern: scan left to right, collect
non-overlapping matches (each match is 7 characters long).  The scan
consumes at least one character per step, so running it with fuel equal to
the length of the text is exact; the fuel only makes the recursion
structural. -/
def findAllAux : Nat → List Char → List (List Char)
  | 0, _ => []
  | _, [] => []
  | fuel + 1, c :: rest =>
    if matchesAt (c :: rest) then
      (c :: rest).take 7 :: findAllAux fuel ((c :: rest).drop 7)
    else
      findAllAux fuel rest

/-- re.findall of the repair pattern over a whole line. -/
def findAll (l : List Char) : List (List Char) :=
  findAllAux l.length l

/-- str.replace for a nonempty pattern: replace every non-overlapping
occurrence, scanning left to right.  Fuel as in findAllAux. -/
def replaceAllAux (pat rep : List Char) : Nat → List Char → List Char
  | 0, l => l
  | _, [] => []
  | fuel + 1, c :: rest =>
    if pat ≠ [] ∧ pat.isPrefixOf (c :: rest) then
      rep ++ replaceAllAux pat rep fuel ((c :: rest).drop pat.length)
    else
      c :: replaceAllAux pat rep fuel rest

/-- str.replace of the pattern by the replacement throughout the text. -/
def replaceAll (l pat rep : List Char) : List Char :=
  replaceAllAux pat rep l.length l

/-- source.replace of comma by semicolon inside one regex match (line 352). -/
def semicolonize (m : List Char) : List Char :=
  m.map fun c => if c = ',' then ';' else c

/-- The repair pass over one data line, lines 350 to 353: for every regex
match, replace its comma by a semicolon throughout the line. -/
def repairLine (line : List Char) : List Char :=
  (findAll line).foldl (fun cur m => replaceAll cur m (semicolonize m)) line

/-- Repaired line split on comma (line 355). -/
def repairFields (line : List Char) : List (List Char) :=
  (repairLine line).splitOn ','

/-- str.split for a multi-character separator, keeping empty pieces, as
Python does for data.split on backslash n (line 343).  Fuel as in
findAllAux. -/
def splitOnSubAux (sep : List Char) : Nat → List Char → List (List Char)
  | 0, l => [l]
  | _, [] => [[]]
  | fuel + 1, c :: rest =>
    if sep ≠ [] ∧ sep.isPrefixOf (c :: rest) then
      [] :: splitOnSubAux sep fuel ((c :: rest).drop sep.length)
    else
      match splitOnSubAux sep fuel rest with
      | [] => [[c]]
      | piece :: pieces => (c :: piece) :: pieces

/-- str.split for a multi-character separator over a whole text. -/
def splitOnSub (sep : List Char) (l : List Char) : List (List Char) :=
  splitOnSubAux sep l.length l

/-- str.lstrip with a set of characters: drop leading characters that are
members of the set. -/
def lstripSet (s : List Char) : List Char → List Char
  | [] => []
  | c :: rest => if s.contains c then lstripSet s rest else c :: rest

/-- Python repr escaping of one byte, for the printable ASCII subset plus
the escapes the claims exercise. -/
def pyReprChar (c : Char) : List Char :=
  if c = '\n' then ['\\', 'n']
  else if c = '\t' then ['\\', 't']
  else if c = '\r' then ['\\', 'r']
  else if c = '\\' then ['\\', '\\']
  else if c = squote then ['\\', squote]
  else [c]

/-- str applied to a bytes object (line 342): the letter b, then the body
escape-encoded between single quotes. -/
def pyBytesRepr (content : List Char) : List Char :=
  'b' :: squote :: (content.flatMap pyReprChar ++ [squote])

/-- The two-character separator backslash n used on line 343. -/
def newlineSep : List Char := ['\\', 'n']

namespace OnRequestReport

/-- data.split on backslash n (lines 342 and 343). -/
def parseRows (content : List Char) : List (List Char) :=
  WalmartSeller.splitOnSub WalmartSeller.newlineSep (WalmartSeller.pyBytesRepr content)

/-- Header extraction (line 344): rows[0].lstrip of b and quote, split on
comma. -/
def parseHeader (content : List Char) : List (List Char) :=
  (WalmartSeller.lstripSet ['b', WalmartSeller.squote]
    ((parseRows content).headD [])).splitOn ','

/-- dict(zip(header, fields)) (line 355): pairs up to the shorter list. -/
def mkRow (header fields : List (List Char)) : WalmartSeller.Row :=
  header.zip fields

/-- parse_response of WalmartOnRequestReportStream, lines 331 to 357,
starting from the bytes of the single inner archive entry. -/
def parse_response (content : List Char) : List WalmartSeller.Row :=
  ((parseRows content).drop 1).map
    (fun line => mkRow (parseHeader content) (WalmartSeller.repairFields line))

end OnRequestReport

namespace Reconciliation

/-- Lines of the decompressed text, blank lines skipped as the csv reader
does. -/
def reconLines (content : List Char) : List (List Char) :=
  (content.splitOn '\n').filter (fun l => !l.isEmpty)

/-- parse_response of ReconciliationReport, lines 413 to 420: a DictReader
takes the first line as header, next(reader, None) consumes the first data
row, the remaining rows are yielded. -/
def parse_response (content : List Char) : List WalmartSeller.Row :=
  match reconLines content with
  | [] => []
  | header :: dataLines =>
    (dataLines.map (fun l => (header.splitOn ',').zip (l.splitOn ','))).drop 1

end Reconciliation

/-!
## Cursor Codec (WalmartStream._params_from_next_page_token)

Lines 53 to 62 of streams.py.
-/

/-- str.strip with a character set: drop the characters of the set from
both ends. -/
def stripChars (s : List Char) (l : List Char) : List Char :=
  (lstripSet s (lstripSet s l).reverse).reverse

/-- Assignment into a Python dict: update the value in place when the key
exists, append the pair otherwise. -/
def dictInsert : List (List Char × List Char) → List Char → List Char →
    List (List Char × List Char)
  | [], k, v => [(k, v)]
  | (k0, v0) :: rest, k, v =>
    if k0 = k then (k0, v) :: rest else (k0, v0) :: dictInsert rest k v

/-- Body of the for loop over query segments (lines 56 to 60): strip the
question marks, split on the equals sign, keep the pair only when the split
has exactly two parts. -/
def tokenStep (params : List (List Char × List Char)) (qp : List Char) :
    List (List Char × List Char) :=
  match (stripChars ['?'] qp).splitOn '=' with
  | [k, v] => dictInsert params k v
  | _ => params

/-- _params_from_next_page_token: fold the segment handler over the pieces
of the token split on the ampersand. -/
def paramsFromNextPageToken (tokenVal : List Char) : List (List Char × List Char) :=
  (tokenVal.splitOn '&').foldl tokenStep []

/-- Modelled from the wording of the claim: the well-formed segments of a
token are those that, after stripping question marks, split on the equals
sign into exactly two parts.  Used only to compare the code against the
claim. -/
def wfSegment (qp : List Char) : Option (List Char × List Char) :=
  match (stripChars ['?'] qp).splitOn '=' with
  | [k, v] => some (k, v)
  | _ => none

/-- The well-formed key value pairs of a token, in segment order. -/
def specWellFormedPairs (tokenVal : List Char) : List (List Char × List Char) :=
  (tokenVal.splitOn '&').filterMap wfSegment

/-- Value of the last pair in the list whose key is k, if any. -/
def lastValue (ps : List (List Char × List Char)) (k : List Char) :
    Option (List Char) :=
  ps.foldl (fun acc kv => if kv.1 = k then some kv.2 else acc) none

/-- Fold dict assignment over a pair list, starting from a given dict. -/
def insertAll (init : List (List Char × List Char))
    (ps : List (List Char × List Char)) : List (List Char × List Char) :=
  ps.foldl (fun m kv => dictInsert m kv.1 kv.2) init

/-- Reading a key out of a Python dict modelled as an ordered pair list. -/
def dictFind : List (List Char × List Char) → List Char → Option (List Char)
  | [], _ => none
  | (k0, v) :: rest, k => if k0 = k then some v else dictFind rest k

/-!
## Paginated Fetcher token extraction (Orders and Items next_page_token)

Lines 76 to 79 and 157 to 160 of streams.py.  The response body is a JSON
value; dict.get on a dict returns the value or none, and calling get on
anything that is not a dict (including None) raises, modelled as an Except
error.  The Python truthiness test on line 78 and line 159 is jsonTruthy.
-/

inductive Json where
  | null : Json
  | str : List Char → Json
  | num : Int → Json
  | bool : Bool → Json
  | arr : List Json → Json
  | obj : List (List Char × Json) → Json

/-- Key lookup in a JSON object field list. -/
def jsonLookup : List (List Char × Json) → List Char → Option Json
  | [], _ => none
  | (k, v) :: rest, key => if k = key then some v else jsonLookup rest key

/-- One .get step: on a dict return the field or none, on anything else
(including None) raise. -/
def dictGetStep : Option Json → List Char → Except Unit (Option Json)
  | some (.obj fields), key => .ok (jsonLookup fields key)
  | _, _ => .error ()

/-- Python truthiness of a fetched JSON value; none is the absent field. -/
def jsonTruthy : Option Json → Bool
  | none => false
  | some .null => false
  | some (.str s) => !s.isEmpty
  | some (.num n) => n != 0
  | some (.bool b) => b
  | some (.arr xs) => !xs.isEmpty
  | some (.obj fs) => !fs.isEmpty

/-- The configured cursor field name, nextCursor (line 27). -/
def nextCursorField : List Char := "nextCursor".toList

/-- Orders.next_page_token, lines 76 to 79: read list, then meta, then the
cursor field; return the token when truthy, none otherwise. -/
def ordersNextPageToken (j : Json) : Except Unit (Option Json) :=
  match dictGetStep (some j) ("list".toList) with
  | .error e => .error e
  | .ok l =>
    match dictGetStep l ("meta".toList) with
    | .error e => .error e
    | .ok m =>
      match dictGetStep m nextCursorField with
      | .error e => .error e
      | .ok tok => .ok (if jsonTruthy tok then tok else none)

/-- Items.next_page_token, lines 157 to 160: read the cursor field at the
top level; return the token when truthy, none otherwise. -/
def itemsNextPageToken (j : Json) : Except Unit (Option Json) :=
  match dictGetStep (some j) nextCursorField with
  | .error e => .error e
  | .ok tok => .ok (if jsonTruthy tok then tok else none)

/-!
## Slice Planner (ReconciliationReport.stream_slices)

Lines 403 to 411 of streams.py.  Dates are compared as datetimes; a valid
calendar date is encoded order-faithfully as year * 10000 + month * 100 +
day.  strptime failure on any date aborts the whole call, modelled with
Option.
-/

/-- Numeric value of a digit character. -/
def digitVal (c : Char) : Option Nat :=
  if c.isDigit then some (c.toNat - 48) else none

/-- Value of a digit string. -/
def digitsVal (l : List Char) : Option Nat :=
  l.foldl
    (fun acc c =>
      match acc, digitVal c with
      | some n, some d => some (n * 10 + d)
      | _, _ => none)
    (some 0)

/-- Order-faithful key of a calendar date, with the range checks strptime
performs. -/
def dateKey (y m d : Nat) : Option Nat :=
  if 1 ≤ m ∧ m ≤ 12 ∧ 1 ≤ d ∧ d ≤ 31 then some (y * 10000 + m * 100 + d)
  else none

/-- strptime with format %Y-%m-%d (DATE_FORMAT, line 20). -/
def strptimeYMD (s : List Char) : Option Nat :=
  match s with
  | [y1, y2, y3, y4, '-', m1, m2, '-', d1, d2] =>
    match digitsVal [y1, y2, y3, y4], digitsVal [m1, m2], digitsVal [d1, d2] with
    | some y, some m, some d => dateKey y m d
    | _, _, _ => none
  | _ => none

/-- strptime with format %m%d%Y (line 408). -/
def strptimeMDY (s : List Char) : Option Nat :=
  match s with
  | [m1, m2, d1, d2, y1, y2, y3, y4] =>
    match digitsVal [y1, y2, y3, y4], digitsVal [m1, m2], digitsVal [d1, d2] with
    | some y, some m, some d => dateKey y m d
    | _, _, _ => none
  | _ => none

/-- One slice yielded by stream_slices (line 411). -/
structure DateSlice where
  report_date : List Char
  deriving DecidableEq

/-- stream_slices of ReconciliationReport, lines 403 to 411: parse the
bounds (a missing end date means now, supplied as nowKey), parse every
available date, keep the dates inside the inclusive range in their original
order, one slice each. -/
def stream_slices (availableDates : List (List Char)) (startDate : List Char)
    (endDate : Option (List Char)) (nowKey : Nat) : Option (List DateSlice) :=
  match strptimeYMD startDate with
  | none => none
  | some s =>
    match (match endDate with | some ed => strptimeYMD ed | none => some nowKey) with
    | none => none
    | some e =>
      match availableDates.mapM (fun d => (strptimeMDY d).map (fun k => (d, k))) with
      | none => none
      | some keyed =>
        some ((keyed.filter (fun dk => decide (s ≤ dk.2) && decide (dk.2 ≤ e))).map
          (fun dk => ⟨dk.1⟩))

/-- Status sequence of claim C3. -/
def c3Statuses : Nat → String :=
  fun i => if i = 0 then "RECEIVED" else if i = 1 then "INPROGRESS" else "READY"

/-- Status sequence of claim C4. -/
def c4Statuses : Nat → String :=
  fun i => if i = 0 then "RECEIVED" else "ERROR"

/-!
## Helper lemmas
-/

/-- Keys of a zipped row are an initial segment of the header. -/
theorem map_fst_zip_take {α β : Type} :
    ∀ (h : List α) (f : List β), (h.zip f).map Prod.fst = h.take (h.zip f).length := by
  intro h
  induction h with
  | nil => intro f; rfl
  | cons a h ih =>
    intro f
    cases f with
    | nil => rfl
    | cons b f => simp [ih f]

/-- The segment handler acts through wfSegment: a well-formed segment is
inserted, anything else is skipped. -/
theorem tokenStep_wf (m : List (List Char × List Char)) (qp : List Char) :
    tokenStep m qp =
      match wfSegment qp with
      | some kv => dictInsert m kv.1 kv.2
      | none => m := by
  unfold tokenStep wfSegment
  rcases hsplit : (stripChars ['?'] qp).splitOn '=' with _ | ⟨k, _ | ⟨v, _ | ⟨x, xs⟩⟩⟩ <;>
    simp

/-- Folding the segment handler equals inserting the well-formed pairs. -/
theorem foldl_tokenStep (segs : List (List Char)) :
    ∀ m, segs.foldl tokenStep m = insertAll m (segs.filterMap wfSegment) := by
  induction segs with
  | nil => intro m; rfl
  | cons qp rest ih =>
    intro m
    rw [List.foldl_cons, List.filterMap_cons, tokenStep_wf]
    rcases h : wfSegment qp with _ | kv
    · exact ih m
    · rw [insertAll, List.foldl_cons]
      exact ih (dictInsert m kv.1 kv.2)

/-- Lookup after one dict assignment. -/
theorem dictFind_dictInsert (k0 v0 k : List Char) :
    ∀ m, dictFind (dictInsert m k0 v0) k =
      if k0 = k then some v0 else dictFind m k := by
  intro m
  induction m with
  | nil =>
    by_cases h : k0 = k <;> simp [dictInsert, dictFind, h]
  | cons p rest ih =>
    obtain ⟨k1, v1⟩ := p
    by_cases h1 : k1 = k0
    · subst h1
      by_cases h2 : k1 = k <;> simp [dictInsert, dictFind, h2]
    · by_cases h4 : k1 = k
      · subst h4
        have hk0 : ¬ (k0 = k1) := fun hh => h1 hh.symm
        simp [dictInsert, dictFind, h1, hk0]
      · simp [dictInsert, dictFind, h1, h4, ih]

/-- Unfolding lastValue over a head pair. -/
theorem lastValue_cons (q : List Char × List Char)
    (ps : List (List Char × List Char)) (k : List Char) :
    lastValue (q :: ps) k =
      match lastValue ps k with
      | some v => some v
      | none => if q.1 = k then some q.2 else none := by
  have haux : ∀ (ps : List (List Char × List Char)) (acc : Option (List Char)),
      ps.foldl (fun a kv => if kv.1 = k then some kv.2 else a) acc =
        match lastValue ps k with
        | some v => some v
        | none => acc := by
    intro ps
    induction ps with
    | nil => intro acc; rfl
    | cons q2 ps ih =>
      intro acc
      rw [List.foldl_cons, ih]
      have hq : lastValue (q2 :: ps) k =
          match lastValue ps k with
          | some v => some v
          | none => if q2.1 = k then some q2.2 else none := by
        unfold lastValue
        rw [List.foldl_cons]
        exact ih (if q2.1 = k then some q2.2 else none)
      rw [hq]
      rcases lastValue ps k with _ | v
      · by_cases hq2 : q2.1 = k <;> simp [hq2]
      · simp
  unfold lastValue
  rw [List.foldl_cons]
  exact haux ps (if q.1 = k then some q.2 else none)

/-- Lookup after inserting a pair list equals the value of the last pair
with the key, falling back to the initial dict. -/
theorem dictFind_insertAll (k : List Char) :
    ∀ (ps : List (List Char × List Char)) (m : List (List Char × List Char)),
      dictFind (insertAll m ps) k =
        match lastValue ps k with
        | some v => some v
        | none => dictFind m k := by
  intro ps
  induction ps with
  | nil => intro m; rfl
  | cons p ps ih =>
    intro m
    rw [insertAll, List.foldl_cons]
    have heq : (insertAll (dictInsert m p.1 p.2) ps) =
        ps.foldl (fun m kv => dictInsert m kv.1 kv.2) (dictInsert m p.1 p.2) := rfl
    rw [← heq, ih (dictInsert m p.1 p.2), dictFind_dictInsert, lastValue_cons]
    rcases lastValue ps k with _ | v
    · by_cases h : p.1 = k <;> simp [h]
    · simp

/-!
## Claim theorems
-/

/-- Claim C5, counterexample: on the data line a,"x","y,z""",b the repair
pass followed by splitting on the comma yields 5 fields, not the 4 the
claim states. -/
theorem C5_counterexample :
    (repairFields ("a,\"x\",\"y,z\"\"\",b".toList)).length = 5 ∧
    (repairFields ("a,\"x\",\"y,z\"\"\",b".toList)).length ≠ 4 := by
  decide

/-- Claim C5, amended: the repair regex does not match the line
a,"x","y,z""",b, so the internal comma still separates; the pass yields
exactly the 5 fields listed here, and zipping them against a 4 column
header keeps only the first 4. -/
theorem C5_amended :
    repairFields ("a,\"x\",\"y,z\"\"\",b".toList) =
      [['a'], ['"', 'x', '"'], ['"', 'y'], ['z', '"', '"', '"'], ['b']] ∧
    (OnRequestReport.mkRow [['h'], ['i'], ['j'], ['k']]
      (repairFields ("a,\"x\",\"y,z\"\"\",b".toList))).length = 4 := by
  decide

/-- Claim C6, counterexample: for an archive whose single inner CSV entry
is the header a,b,c and the data line 1,2,3, neither decoder yields the
single row mapping a to 1, b to 2 and c to 3. -/
theorem C6_counterexample :
    OnRequestReport.parse_response ("a,b,c\n1,2,3".toList) ≠
      [[(['a'], ['1']), (['b'], ['2']), (['c'], ['3'])]] ∧
    Reconciliation.parse_response ("a,b,c\n1,2,3".toList) ≠
      [[(['a'], ['1']), (['b'], ['2']), (['c'], ['3'])]] := by
  decide

/-- Claim C6, amended: on that input the on-request decoder yields one row
whose last field keeps the closing quote of the Python bytes text, mapping
c to 3 followed by a single quote character; the reconciliation decoder
yields no rows at all, because its skip consumes the only data line. -/
theorem C6_amended :
    OnRequestReport.parse_response ("a,b,c\n1,2,3".toList) =
      [[(['a'], ['1']), (['b'], ['2']), (['c'], ['3', squote])]] ∧
    Reconciliation.parse_response ("a,b,c\n1,2,3".toList) = [] := by
  decide

/-- Claim C7, counterexample: on the token a=1&a=2 both segments are well
formed, yet the decoded mapping does not contain the pair a, 1 because the
later segment overwrites it. -/
theorem C7_counterexample :
    paramsFromNextPageToken ("a=1&a=2".toList) = [(['a'], ['2'])] ∧
    (['a'], ['1']) ∈ specWellFormedPairs ("a=1&a=2".toList) ∧
    (['a'], ['1']) ∉ paramsFromNextPageToken ("a=1&a=2".toList) := by
  decide

/-- Claim C7, amended: for every token and key, decoding is total and the
mapping holds exactly the keys of well-formed segments, each bound to the
value of the last well-formed segment with that key; malformed segments
contribute nothing. -/
theorem C7_amended (t k : List Char) :
    dictFind (paramsFromNextPageToken t) k = lastValue (specWellFormedPairs t) k := by
  unfold paramsFromNextPageToken specWellFormedPairs
  rw [foldl_tokenStep, dictFind_insertAll]
  rcases lastValue ((t.splitOn '&').filterMap wfSegment) k with _ | v
  · rfl
  · rfl

/-- Claim C8, counterexample: a response whose cursor field is present at
the endpoint path but holds an empty string makes next_page_token return
none, terminating pagination although the field is present; this happens
for the nested Orders path and for the top-level Items path alike. -/
theorem C8_counterexample :
    dictGetStep (some (Json.obj [("list".toList, Json.obj [("meta".toList,
        Json.obj [(nextCursorField, Json.str [])])])])) ("list".toList) =
      .ok (some (Json.obj [("meta".toList, Json.obj [(nextCursorField, Json.str [])])])) ∧
    dictGetStep (some (Json.obj [("meta".toList, Json.obj [(nextCursorField,
        Json.str [])])])) ("meta".toList) =
      .ok (some (Json.obj [(nextCursorField, Json.str [])])) ∧
    dictGetStep (some (Json.obj [(nextCursorField, Json.str [])])) nextCursorField =
      .ok (some (Json.str [])) ∧
    ordersNextPageToken (Json.obj [("list".toList, Json.obj [("meta".toList,
        Json.obj [(nextCursorField, Json.str [])])])]) = .ok none ∧
    itemsNextPageToken (Json.obj [(nextCursorField, Json.str [])]) = .ok none :=
  ⟨rfl, rfl, rfl, rfl, rfl⟩

/-- Claim C8, amended: when the envelope fields exist, next_page_token
returns the token exactly when the field value is truthy; an absent field
or a falsy value (such as an empty string) terminates pagination, for the
Orders path and the Items path alike. -/
theorem C8_amended :
    (∀ (j : Json) (l m : Json) (t : Option Json),
      dictGetStep (some j) ("list".toList) = .ok (some l) →
      dictGetStep (some l) ("meta".toList) = .ok (some m) →
      dictGetStep (some m) nextCursorField = .ok t →
      ordersNextPageToken j = .ok (if jsonTruthy t then t else none)) ∧
    (∀ (j : Json) (t : Option Json),
      dictGetStep (some j) nextCursorField = .ok t →
      itemsNextPageToken j = .ok (if jsonTruthy t then t else none)) := by
  constructor
  · intro j l m t hl hm ht
    simp only [ordersNextPageToken, hl, hm, ht]
  · intro j t ht
    simp only [itemsNextPageToken, ht]

/-- Claim C8, witness for the amended statement at a concrete response with
a truthy cursor value on both paths. -/
theorem C8_amended_witness :
    ordersNextPageToken (Json.obj [("list".toList,
        Json.obj [("meta".toList, Json.obj [(nextCursorField, Json.str ("abc".toList))])]),
      (nextCursorField, Json.str ("x".toList))]) =
      .ok (some (Json.str ("abc".toList))) ∧
    itemsNextPageToken (Json.obj [("list".toList,
        Json.obj [("meta".toList, Json.obj [(nextCursorField, Json.str ("abc".toList))])]),
      (nextCursorField, Json.str ("x".toList))]) =
      .ok (some (Json.str ("x".toList))) :=
  ⟨C8_amended.1 _
      (Json.obj [("meta".toList, Json.obj [(nextCursorField, Json.str ("abc".toList))])])
      (Json.obj [(nextCursorField, Json.str ("abc".toList))])
      (some (Json.str ("abc".toList))) rfl rfl rfl,
    C8_amended.2 _ (some (Json.str ("x".toList))) rfl⟩

/-- Claim C9, counterexample: with header a,b,c and the short data line 1,2
the emitted row holds only the keys a and b, not the key set of the
header. -/
theorem C9_counterexample :
    OnRequestReport.parse_response ("a,b,c\n1,2".toList) =
      [[(['a'], ['1']), (['b'], ['2', squote])]] ∧
    OnRequestReport.parseHeader ("a,b,c\n1,2".toList) = [['a'], ['b'], ['c']] ∧
    [(['a'], ['1']), (['b'], ['2', squote])].map Prod.fst ≠ [['a'], ['b'], ['c']] := by
  decide

/-- Claim C9, amended: every row emitted by the on-request decoder has as
keys an initial segment of the header, of the length of the row; zipping
truncates to the shorter side, so the key set equals the header only when
the data line has at least as many fields. -/
theorem C9_amended (content : List Char) (r : Row)
    (hr : r ∈ OnRequestReport.parse_response content) :
    r.map Prod.fst = (OnRequestReport.parseHeader content).take r.length := by
  simp only [OnRequestReport.parse_response, List.mem_map] at hr
  obtain ⟨line, _, rfl⟩ := hr
  exact map_fst_zip_take _ _

/-- Claim C9, witness for the amended statement at a concrete artifact with
a short data line. -/
theorem C9_amended_witness :
    [(['a'], ['1']), (['b'], ['2', squote])] ∈
      OnRequestReport.parse_response ("a,b,c\n1,2".toList) ∧
    ([(['a'], ['1']), (['b'], ['2', squote])] : Row).map Prod.fst =
      (OnRequestReport.parseHeader ("a,b,c\n1,2".toList)).take 2 :=
  ⟨by decide, C9_amended _ _ (by decide)⟩

/-- Claim C10: the slice planner keeps exactly the available dates inside
the inclusive configured range, in their original order, one slice per
date. -/
theorem C10_slice_planner :
    stream_slices ["03152023".toList, "01012023".toList, "02282023".toList]
      ("2023-01-01".toList) (some ("2023-03-01".toList)) 0 =
      some [⟨"01012023".toList⟩, ⟨"02282023".toList⟩] := by
  decide

/-- Claim C2, counterexample: with every poll returning the unrecognized
status PENDING_VALIDATION and a full wait budget still available, the loop
stops after a single poll with all flags down and read_records raises the
unknown-response failure; polling does not continue and the stop is not the
timeout. -/
theorem C2_counterexample :
    pollLoop (fun _ => "PENDING_VALIDATION") 7200 300 10 initPollState =
      some { polls := 1, waited := 0, clock := 0, inProgress := false,
             isReady := false, isError := false,
             lastPayload := some "PENDING_VALIDATION" } ∧
    readRecords "r" (fun _ => "PENDING_VALIDATION") 7200 300 [] 10 =
      some (.unknownResponse (some "PENDING_VALIDATION")) :=
  ⟨rfl, rfl⟩

/-- Claim C2, amended: a status outside the vocabulary RECEIVED,
INPROGRESS, READY, ERROR is not treated as in progress: the first such
status ends the loop at once, without sleeping, and read_records raises the
unknown-response failure carrying that status, regardless of how much wait
budget remains. -/
theorem C2_amended (statuses : Nat → String) (maxWait sleepFor fuel : Nat)
    (rows : List Row)
    (h0 : statuses 0 ≠ "RECEIVED") (h1 : statuses 0 ≠ "INPROGRESS")
    (h2 : statuses 0 ≠ "READY") (h3 : statuses 0 ≠ "ERROR")
    (hM : 0 < maxWait) (hfuel : 2 ≤ fuel) :
    pollLoop statuses maxWait sleepFor fuel initPollState =
      some { polls := 1, waited := 0, clock := 0, inProgress := false,
             isReady := false, isError := false,
             lastPayload := some (statuses 0) } ∧
    readRecords "r" statuses maxWait sleepFor rows fuel =
      some (.unknownResponse (some (statuses 0))) := by
  obtain ⟨f, rfl⟩ : ∃ f, fuel = f + 1 + 1 := ⟨fuel - 2, by omega⟩
  have e0 : (statuses 0 == "RECEIVED") = false := beq_eq_false_iff_ne.mpr h0
  have e1 : (statuses 0 == "INPROGRESS") = false := beq_eq_false_iff_ne.mpr h1
  have e2 : (statuses 0 == "READY") = false := beq_eq_false_iff_ne.mpr h2
  have e3 : (statuses 0 == "ERROR") = false := beq_eq_false_iff_ne.mpr h3
  have hstep : loopIter statuses sleepFor initPollState =
      { polls := 1, waited := 0, clock := 0, inProgress := false,
        isReady := false, isError := false, lastPayload := some (statuses 0) } := by
    simp [loopIter, initPollState, inProgressStatus, e0, e1, e2, e3]
  have hpl : pollLoop statuses maxWait sleepFor (f + 1 + 1) initPollState =
      some { polls := 1, waited := 0, clock := 0, inProgress := false,
             isReady := false, isError := false,
             lastPayload := some (statuses 0) } := by
    simp only [pollLoop]
    rw [if_pos ⟨rfl, hM⟩, hstep]
    simp only [pollLoop]
    rw [if_neg (fun hc => Bool.false_ne_true hc.1)]
  refine ⟨hpl, ?_⟩
  unfold readRecords
  rw [if_neg (by decide : ¬ ("r" : String) = ""), hpl]
  rfl

/-- Claim C2, witness for the amended statement at a concrete unrecognized
status and the default configuration. -/
theorem C2_amended_witness :
    pollLoop (fun _ => "PROCESSING") 7200 300 2 initPollState =
      some { polls := 1, waited := 0, clock := 0, inProgress := false,
             isReady := false, isError := false,
             lastPayload := some "PROCESSING" } ∧
    readRecords "r" (fun _ => "PROCESSING") 7200 300 [] 2 =
      some (.unknownResponse (some "PROCESSING")) :=
  C2_amended (fun _ => "PROCESSING") 7200 300 2 []
    (by decide) (by decide) (by decide) (by decide) (by decide) (by decide)

/-- Claim C3: with the status sequence RECEIVED, INPROGRESS, READY and the
configured budget (max_wait_seconds 7200, sleep_for_seconds 300), the run
stays in progress after the first two polls, turns ready on the third,
exits read_records with the parsed rows, and calls the download endpoint
exactly once. -/
theorem C3_ready_path (requestId : String) (rows : List Row)
    (h : requestId ≠ "") :
    (loopIter c3Statuses 300 initPollState).inProgress = true ∧
    (loopIter c3Statuses 300 (loopIter c3Statuses 300 initPollState)).inProgress = true ∧
    (loopIter c3Statuses 300
      (loopIter c3Statuses 300 (loopIter c3Statuses 300 initPollState))).isReady = true ∧
    readRecords requestId c3Statuses 7200 300 rows 4 = some (.success rows) ∧
    (readRecords requestId c3Statuses 7200 300 rows 4).map downloadCalls = some 1 := by
  have h4 : readRecords requestId c3Statuses 7200 300 rows 4 = some (.success rows) := by
    unfold readRecords
    rw [if_neg h]
    rfl
  exact ⟨rfl, rfl, rfl, h4, by rw [h4]; rfl⟩

/-- Claim C3, witness at a concrete job id and row list. -/
theorem C3_ready_path_witness :
    (loopIter c3Statuses 300 initPollState).inProgress = true ∧
    (loopIter c3Statuses 300 (loopIter c3Statuses 300 initPollState)).inProgress = true ∧
    (loopIter c3Statuses 300
      (loopIter c3Statuses 300 (loopIter c3Statuses 300 initPollState))).isReady = true ∧
    readRecords "req" c3Statuses 7200 300 [] 4 = some (.success []) ∧
    (readRecords "req" c3Statuses 7200 300 [] 4).map downloadCalls = some 1 :=
  C3_ready_path "req" [] (by decide)

/-- Claim C4: with the status sequence RECEIVED, ERROR and the configured
budget, read_records raises the report-generation failure; the download
endpoint is never called, and the single created job is never resubmitted
(the model performs exactly one submission by construction). -/
theorem C4_error_path (requestId : String) (rows : List Row)
    (h : requestId ≠ "") :
    readRecords requestId c4Statuses 7200 300 rows 3 = some .generationFailed ∧
    (readRecords requestId c4Statuses 7200 300 rows 3).map downloadCalls = some 0 := by
  have h1 : readRecords requestId c4Statuses 7200 300 rows 3 = some .generationFailed := by
    unfold readRecords
    rw [if_neg h]
    rfl
  exact ⟨h1, by rw [h1]; rfl⟩

/-- Claim C4, witness at a concrete job id and row list. -/
theorem C4_error_path_witness :
    readRecords "req" c4Statuses 7200 300 [] 3 = some .generationFailed ∧
    (readRecords "req" c4Statuses 7200 300 [] 3).map downloadCalls = some 0 :=
  C4_error_path "req" [] (by decide)

/-- Termination and poll-count bound of the loop when every poll reports an
in-progress status.  The state after k polls has waited equal to the clock
before the last sleep, namely (k - 1) times the interval, and clock k times
the interval; the loop exits with the in-progress flag still raised and at
most ceiling of maxWait over sleepFor plus one polls. -/
theorem pollLoop_allInProgress (statuses : Nat → String) (M p : Nat)
    (hp : 0 < p) (hall : ∀ i, inProgressStatus (statuses i) = true) :
    ∀ fuel k w c last,
      w = (if k = 0 then 0 else (k - 1) * p) →
      c = k * p →
      k ≤ (M + p - 1) / p + 1 →
      (M + p - 1) / p + 2 ≤ fuel + k →
      ∃ st,
        pollLoop statuses M p fuel
          { polls := k, waited := w, clock := c, inProgress := true,
            isReady := false, isError := false, lastPayload := last } = some st ∧
        st.polls ≤ (M + p - 1) / p + 1 ∧ st.inProgress = true ∧
        st.isReady = false ∧ st.isError = false := by
  intro fuel
  induction fuel with
  | zero =>
    intro k w c last hw hc hk hf
    exfalso
    omega
  | succ f ih =>
    intro k w c last hw hc hk hf
    by_cases hguard : w < M
    · have hs := hall k
      have hsrec : statuses k = "RECEIVED" ∨ statuses k = "INPROGRESS" := by
        have hb := hs
        simp only [inProgressStatus, Bool.or_eq_true, beq_iff_eq] at hb
        exact hb
      have hstep : loopIter statuses p
          { polls := k, waited := w, clock := c, inProgress := true,
            isReady := false, isError := false, lastPayload := last } =
          { polls := k + 1, waited := c, clock := c + p, inProgress := true,
            isReady := false, isError := false, lastPayload := some (statuses k) } := by
        rcases hsrec with h | h <;> simp [loopIter, inProgressStatus, h]
      have hrun : pollLoop statuses M p (f + 1)
          { polls := k, waited := w, clock := c, inProgress := true,
            isReady := false, isError := false, lastPayload := last } =
          pollLoop statuses M p f
            { polls := k + 1, waited := c, clock := c + p, inProgress := true,
              isReady := false, isError := false,
              lastPayload := some (statuses k) } := by
        simp only [pollLoop]
        rw [if_pos ⟨by trivial, hguard⟩, hstep]
      rw [hrun]
      have hM1 : 1 ≤ M := by omega
      have hkb : k + 1 ≤ (M + p - 1) / p + 1 := by
        have hkp : k * p ≤ M + p - 1 := by
          rcases Nat.eq_zero_or_pos k with hk0 | hkpos
          · subst hk0
            omega
          · have hw2 : w = (k - 1) * p := by
              rw [hw, if_neg (by omega)]
            have hmul : (k - 1) * p + p = k * p := by
              have h1 : k - 1 + 1 = k := by omega
              calc (k - 1) * p + p = (k - 1 + 1) * p := (Nat.succ_mul _ _).symm
                _ = k * p := by rw [h1]
            omega
        have := (Nat.le_div_iff_mul_le hp).mpr hkp
        omega
      apply ih (k + 1) c (c + p) (some (statuses k))
      · rw [if_neg (Nat.succ_ne_zero k)]
        simpa using hc
      · rw [Nat.succ_mul, hc]
      · exact hkb
      · omega
    · refine ⟨(⟨k, w, c, true, false, false, last⟩ : PollState),
        ?_, hk, rfl, rfl, rfl⟩
      simp only [pollLoop]
      rw [if_neg (fun hc2 => hguard hc2.2)]

/-- Claim C1, counterexample: with max_wait 5 and poll interval 2 and every
status in progress, the loop performs 4 polls before the timeout exit,
exceeding the claimed bound of floor of 5 over 2 plus 1, which is 3; the
run then raises the timeout failure. -/
theorem C1_counterexample :
    (pollLoop (fun _ => "INPROGRESS") 5 2 10 initPollState).map PollState.polls =
      some 4 ∧
    ¬ (4 ≤ 5 / 2 + 1) ∧
    readRecords "r" (fun _ => "INPROGRESS") 5 2 [] 10 =
      some (.unknownResponse (some "INPROGRESS")) :=
  ⟨rfl, by decide, rfl⟩

/-- Claim C1, amended: under the claimed timing model the poll count before
the timeout failure is bounded by the ceiling of max_wait over
poll_interval plus one (when the interval divides the budget this is the
claimed floor plus one; otherwise it is one more, because seconds_waited is
recorded before the sleep that follows the poll and so lags the clock by
one interval). -/
theorem C1_amended (maxWait sleepFor : Nat) (statuses : Nat → String)
    (hp : 0 < sleepFor) (hall : ∀ i, inProgressStatus (statuses i) = true) :
    ∃ st,
      pollLoop statuses maxWait sleepFor
        ((maxWait + sleepFor - 1) / sleepFor + 2) initPollState = some st ∧
      st.polls ≤ (maxWait + sleepFor - 1) / sleepFor + 1 ∧
      readRecords "r" statuses maxWait sleepFor []
        ((maxWait + sleepFor - 1) / sleepFor + 2) =
        some (.unknownResponse st.lastPayload) := by
  obtain ⟨st, heq, hb, hip, hr, he⟩ :=
    pollLoop_allInProgress statuses maxWait sleepFor hp hall
      ((maxWait + sleepFor - 1) / sleepFor + 2) 0 0 0 none rfl (by omega)
      (Nat.zero_le _) (Nat.le_add_right _ 0)
  refine ⟨st, heq, hb, ?_⟩
  unfold readRecords
  rw [if_neg (by decide : ¬ ("r" : String) = "")]
  rw [show initPollState =
      { polls := 0, waited := 0, clock := 0, inProgress := true,
        isReady := false, isError := false,
        lastPayload := (none : Option String) } from rfl, heq]
  simp [hr, he]

/-- Claim C1, witness for the amended statement at the default
configuration, where the interval divides the budget and the bound is 25
polls. -/
theorem C1_amended_witness :
    ∃ st,
      pollLoop (fun _ => "INPROGRESS") 7200 300 26 initPollState = some st ∧
      st.polls ≤ 25 ∧
      readRecords "r" (fun _ => "INPROGRESS") 7200 300 [] 26 =
        some (.unknownResponse st.lastPayload) :=
  C1_amended 7200 300 (fun _ => "INPROGRESS") (by decide) (fun i => rfl)

end WalmartSeller
